import Mathlib

/-!
Verification of the session/command layer of the MissionControl "Junction"
daemon (src/spoke/junction.py), with the morse task (src/spoke/tasks/morse.py).

The embedding follows the Python source.  Python dicts are modelled as
association lists with insertion-order semantics (`dictGet`, `dictInsert`,
`dictPop`).  A raised Python exception is modelled as the `Option PyExc`
component of a handler's result; side effects performed before the raise are
kept in the returned state, as in Python.  Client output is the list of
payloads passed to `client.send`.

The modules printer, light and lamp are imported by junction.py but are not
part of this repository's sources; everywhere they are needed they are
modelled from the spec's capability contract, and the definitions say so.
-/

namespace Junction

/-- Python exceptions, as far as junction.py discriminates them:
`service` catches `TypeError`, `status` catches `AttributeError`,
`read_services` lets `KeyError` escape while catching `FileNotFoundError`
(the latter is modelled by `savedFile = none`).  The message distinguishes,
inside the model, an arity `TypeError` from some other internal `TypeError`;
Python's `except TypeError` cannot tell them apart. -/
inductive PyExc where
  | typeError (msg : String)
  | keyError (key : String)
  | attributeError (msg : String)
  deriving DecidableEq, Repr

/-- `ALL_SERVICES` maps names to the four task modules; the modules are
opaque tokens here, with their behaviour given by `svcDo`, `svcDiscover`
and `svcStatus` below. -/
inductive ServiceId where
  | morse
  | printer
  | light
  | lamp
  deriving DecidableEq, Repr

/-- Python `str.lower()` (the command names are ASCII, where the two
agree). -/
def pyLower (s : String) : String :=
  ⟨s.data.map Char.toLower⟩

/-- Python `str.upper()` (morse input is handled per ASCII character). -/
def pyUpper (s : String) : String :=
  ⟨s.data.map Char.toUpper⟩

/-- Python `sep.join(items)`. -/
def pyJoin (sep : String) : List String → String
  | [] => ""
  | [x] => x
  | x :: rest => x ++ sep ++ pyJoin sep rest

/-- Worker for Python `str.split()`: walk the characters, accumulating the
current word (reversed); whitespace ends a word, runs of whitespace and
edges produce no empty words. -/
def pySplitAux : List Char → List Char → List String
  | [], cur => if cur.isEmpty then [] else [⟨cur.reverse⟩]
  | c :: rest, cur =>
      if c.isWhitespace then
        if cur.isEmpty then pySplitAux rest []
        else (⟨cur.reverse⟩ : String) :: pySplitAux rest []
      else pySplitAux rest (c :: cur)

/-- Python `command.split()`: split on whitespace runs, dropping empties. -/
def pySplit (s : String) : List String :=
  pySplitAux s.data []

/-- Python `d.get(key)` / `d[key]` lookup on an insertion-ordered dict. -/
def dictGet {α : Type} : List (String × α) → String → Option α
  | [], _ => none
  | (k, v) :: rest, key => if k = key then some v else dictGet rest key

/-- Python `d[key] = v`: replace in place when the key is present,
append otherwise. -/
def dictInsert {α : Type} : List (String × α) → String → α → List (String × α)
  | [], key, v => [(key, v)]
  | (k, w) :: rest, key, v =>
      if k = key then (key, v) :: rest else (k, w) :: dictInsert rest key v

/-- Python `d.pop(key)`: drop the entry for the key (first occurrence). -/
def dictPop {α : Type} : List (String × α) → String → List (String × α)
  | [], _ => []
  | (k, w) :: rest, key => if k = key then rest else (k, w) :: dictPop rest key

/-- Python `d.keys()`, in insertion order. -/
def dictKeys {α : Type} (d : List (String × α)) : List String :=
  d.map Prod.fst

/-- The static Service Catalog `ALL_SERVICES` of junction.py. -/
def ALL_SERVICES : List (String × ServiceId) :=
  [("morse", ServiceId.morse), ("print", ServiceId.printer),
   ("light", ServiceId.light), ("lamp", ServiceId.lamp)]

/-- `IDLE_TIMEOUT` of junction.py. -/
def IDLE_TIMEOUT : Nat := 30

/-- One connected client: its sent-output history, its `active` flag and the
value `client.idle()` would return (time units since last activity). -/
structure Client where
  out : List String
  active : Bool
  idleTime : Nat
  deriving DecidableEq, Repr

/-- The state a command execution can read or write: the issuing client, the
Service Registry `SERVICES`, the persisted file `save/services.pkl`
(`none` models the file being absent, i.e. `FileNotFoundError` on open),
the busy flag `device.tasked` of the morse task's led (the led module is
not in the sources; the flag is modelled from the spec, initially idle,
matching the expected initial `READY` status), and the `RUN` flag. -/
structure World where
  client : Client
  services : List (String × ServiceId)
  savedFile : Option (List String)
  deviceTasked : Bool
  run : Bool
  deriving DecidableEq, Repr

/-- `client.send(s)`. -/
def send (w : World) (s : String) : World :=
  { w with client := { w.client with out := w.client.out ++ [s] } }

/-- `tell(client, message)`: `client.send(message + "\n")`. -/
def tell (w : World) (message : String) : World :=
  send w (message ++ "\n")

/-- `error(client)`: `tell(client, "ERROR")`. -/
def error (w : World) : World :=
  tell w "ERROR"

/-- `okay(client)`: `tell(client, "OKAY")`. -/
def okay (w : World) : World :=
  tell w "OKAY"

/-- The `switcher` table of `encode` in morse.py, verbatim. -/
def morseTable : List (Char × String) :=
  [('A', ".- "), ('B', "-... "), ('C', "-.-. "), ('D', "-.. "), ('E', ". "),
   ('F', "..-. "), ('G', "--. "), ('H', ".... "), ('I', ".. "), ('J', ".--- "),
   ('K', "-.- "), ('L', ".-.. "), ('M', "-- "), ('N', "-. "), ('O', "--- "),
   ('P', ".--. "), ('Q', "--.- "), ('R', ".-. "), ('S', "... "), ('T', "- "),
   ('U', "..- "), ('V', "...- "), ('W', ".-- "), ('X', "-..- "), ('Y', "-.-- "),
   ('Z', "--.. "), ('1', ".---- "), ('2', "..--- "), ('3', "...-- "),
   ('4', "....- "), ('5', "..... "), ('6', "-.... "), ('7', "--... "),
   ('8', "---.. "), ('9', "----. "), ('0', "----- "), ('.', ".-.-.-\n"),
   ('!', "-.-.--\n"), ('?', "..--..\n"), (',', "--..-- "), (' ', "/")]

/-- `encode(word)` of morse.py: upper-case the word, then append
`switcher.get(c, "")` for each character.  The source's
`if char is not None` guard is vacuous since the `get` default is `""`. -/
def encode (word : String) : String :=
  (pyUpper word).data.foldl (fun build c => build ++ ((morseTable.lookup c).getD "")) ""

/-- `perform(encoded_phrase, dev)` of morse.py as observed by the caller:
each character is dispatched through `switch.get(c)`; a character outside
`. - space /` (the encoding also emits a newline, for `.` `!` `?`) makes
`fun` be `None`, and `fun(dev)` raises `TypeError`.  Led blinking and
sleeps have no observable effect on the modelled state. -/
def performExc : List Char → Option PyExc
  | [] => none
  | c :: rest =>
      if c = '.' ∨ c = '-' ∨ c = ' ' ∨ c = '/' then performExc rest
      else some (PyExc.typeError "NoneType object is not callable")

/-- `do(client, text)` of morse.py: encode every word, then if the device is
not tasked, reply `OKAY`, set the busy flag, run `perform` (the flag is
cleared only when `perform` returns, so a raise leaves it set), else reply
`ERROR` and a busy message. -/
def morseDo (w : World) (text : List String) : World × Option PyExc :=
  let build := text.foldl (fun b word => b ++ encode word) ""
  if !w.deviceTasked then
    let w1 := { (okay w) with deviceTasked := true }
    match performExc build.data with
    | some e => (w1, some e)
    | none => ({ w1 with deviceTasked := false }, none)
  else
    (tell (error w) "Device or resource is in use.", none)

/-- The `do` entry point of each service module, as junction.py calls it:
`none` models `call(client)` (no text argument), `some rest` models
`call(client, args[1:])`.  `morse.do(client, text)` needs the text
argument, so the one-argument call raises an arity `TypeError`.
Modelled from the spec: the printer, light and lamp modules are not in the
sources; per the capability contract they expose `perform`, may raise an
arity `TypeError` on an unsupported argument count, and otherwise succeed.
The printer takes text (the spec scenario sends `service print hello`);
light and lamp accept either call shape and reply `OKAY`. -/
def svcDo : ServiceId → World → Option (List String) → World × Option PyExc
  | ServiceId.morse, w, none =>
      (w, some (PyExc.typeError "do() missing 1 required positional argument"))
  | ServiceId.morse, w, some text => morseDo w text
  | ServiceId.printer, w, none =>
      (w, some (PyExc.typeError "do() missing 1 required positional argument"))
  | ServiceId.printer, w, some _ => (okay w, none)
  | ServiceId.light, w, _ => (okay w, none)
  | ServiceId.lamp, w, _ => (okay w, none)

/-- `discover()` of each module.  morse.py returns `'text'`.
Modelled from the spec for printer, light and lamp: `describe` declares the
expected argument shape, e.g. `"text"`. -/
def svcDiscover : ServiceId → String
  | ServiceId.morse => "text"
  | ServiceId.printer => "text"
  | ServiceId.light => "text"
  | ServiceId.lamp => "text"

/-- `status()` of each module; `none` models the module lacking the
attribute (the `AttributeError` path of the `status` command).
morse.py reports `DEVICE BUSY` or `READY` from `device.tasked`.
Modelled from the spec for the others: the scenario expects `READY` from
the printer; `report_status` is optional, and light and lamp are modelled
without it. -/
def svcStatus : ServiceId → World → Option String
  | ServiceId.morse, w => some (if w.deviceTasked then "DEVICE BUSY" else "READY")
  | ServiceId.printer, _ => some "READY"
  | ServiceId.light, _ => none
  | ServiceId.lamp, _ => none

/-- `read_services` loop body over the unpickled name list: for each name,
`ALL_SERVICES[service]` raises `KeyError` when the name is absent from the
Catalog, aborting the loop and keeping the partial `SERVICES`; the source's
`if mapped is not None` guard never fails, since catalog values are
modules.  Returns the final registry and the `KeyError` key, if raised. -/
def read_services_go : List String → List (String × ServiceId) →
    List (String × ServiceId) × Option String
  | [], d => (d, none)
  | n :: rest, d =>
      match dictGet ALL_SERVICES n with
      | some mapped => read_services_go rest (dictInsert d n mapped)
      | none => (d, some n)

/-- `read_services()`: an absent file (`FileNotFoundError`) is caught and
logged; otherwise the recorded names are folded into `SERVICES` by
`read_services_go`, and a `KeyError` from `ALL_SERVICES[service]`
escapes. -/
def read_services (w : World) : World × Option PyExc :=
  match w.savedFile with
  | none => (w, none)
  | some names =>
      match read_services_go names w.services with
      | (d, err) => ({ w with services := d }, err.map PyExc.keyError)

/-- `save_services()`: pickle `list(SERVICES.keys())` to the save file. -/
def save_services (w : World) : World :=
  { w with savedFile := some (dictKeys w.services) }

/-- `kick_idle()`: every client with `client.idle() > IDLE_TIMEOUT` is
closed (`close` sets `active = False` and deactivates the transport);
clients are not removed from the table here. -/
def kickIdle (clients : List Client) : List Client :=
  clients.map fun c =>
    if c.idleTime > IDLE_TIMEOUT then { c with active := false } else c

/-- `COMMANDS_HELP` of junction.py, verbatim. -/
def COMMANDS_HELP : List (String × String) :=
  [("help", "... you've got this one."),
   ("end", "Terminates Telnet session."),
   ("exit", "Terminates Telnet session."),
   ("stop", "Stops the junction service, closing all connections."),
   ("service", "Perform a service command.\nservice <name> <*action> <*args>"),
   ("discover", "Return a formatted list of services and actions."),
   ("status", "Return the status of a service.\nstatus <service>"),
   ("enable", "Enable a service on the device.\nenable <name> <*args>"),
   ("disable", "Disable a service on the device.\ndisable <name> <*args>"),
   ("save", "Save enabled services to local server files for recovery after restart.")]

/-- The key list of `COMMANDS`, in insertion order (used by `hlp`, which in
the source reads `COMMANDS.keys()`). -/
def commandNames : List String :=
  ["help", "end", "exit", "stop", "service", "discover", "status", "enable",
   "disable", "save"]

/-- `hlp(client, args)`. -/
def hlp (w : World) (args : List String) : World × Option PyExc :=
  match args with
  | [] =>
      let w1 := tell w ("Available commands: " ++ pyJoin ", " commandNames)
      (tell w1 "For details, use help <command>.", none)
  | a :: _ =>
      match dictGet COMMANDS_HELP a with
      | none => (tell (error w) ("Command '" ++ a ++ "' not found."), none)
      | some help_text => (tell w (a ++ ": " ++ help_text), none)

/-- `close(client, args)`: `client.active = False; client.deactivate()`. -/
def close (w : World) (_args : List String) : World × Option PyExc :=
  ({ w with client := { w.client with active := false } }, none)

/-- `stop(client, args)`: save the registry, then clear `RUN`. -/
def stop (w : World) (_args : List String) : World × Option PyExc :=
  ({ save_services w with run := false }, none)

/-- The `try: call(...) except TypeError:` pattern of `service` (used for
both call shapes): a `TypeError` from the invocation is converted into
`ERROR` / `Invalid number of arguments.`; any other raise propagates. -/
def exceptTypeError (r : World × Option PyExc) : World × Option PyExc :=
  match r with
  | (w, some (PyExc.typeError _)) =>
      (tell (error w) "Invalid number of arguments.", none)
  | other => other

/-- `service(client, args)`: no args prints the help text; an unregistered
name gets `ERROR` / not available; otherwise `do` is called with
`args[1:]` when `len(args) > 1` and with the client alone otherwise,
under `except TypeError`. -/
def serviceCmd (w : World) (args : List String) : World × Option PyExc :=
  match args with
  | [] => (tell w ((dictGet COMMANDS_HELP "service").getD "None"), none)
  | target :: rest =>
      match dictGet w.services target with
      | none => (tell (error w) ("Service '" ++ target ++ "' not available."), none)
      | some svc =>
          let textArg := if rest.length > 0 then some rest else none
          exceptTypeError (svcDo svc w textArg)

/-- Python `str` of the dict `discover` builds (string keys and values). -/
def pyDictStr (pairs : List (String × String)) : String :=
  "\x7b" ++
    pyJoin ", "
      (pairs.map (fun p => "'" ++ p.1 ++ "': '" ++ p.2 ++ "'")) ++
  "\x7d"

/-- `discover(client, args)`: collect `discover()` of every registered
service and `tell` the dict's string form. -/
def discoverCmd (w : World) (_args : List String) : World × Option PyExc :=
  (tell w (pyDictStr (w.services.map (fun p => (p.1, svcDiscover p.2)))), none)

/-- `status(client, args)`: no args prints the help text; a registered name
gets its `status()` (an `AttributeError` for a module without `status` is
converted to `ERROR` / does not support status); an unregistered name gets
`ERROR` / not recognized. -/
def statusCmd (w : World) (args : List String) : World × Option PyExc :=
  match args with
  | [] => (tell w ((dictGet COMMANDS_HELP "status").getD "None"), none)
  | target :: _ =>
      match dictGet w.services target with
      | some svc =>
          match svcStatus svc w with
          | some s => (tell w s, none)
          | none =>
              (tell (error w) ("'" ++ target ++ "' does not support status."), none)
      | none =>
          (tell (error w) ("'" ++ target ++ "' not recognized as a service."), none)

/-- `save(client, args)`. -/
def saveCmd (w : World) (_args : List String) : World × Option PyExc :=
  (okay (save_services w), none)

/-- `enable(client, args)`: no args prints the help text; a name absent
from the Catalog gets `ERROR` / not available to enable; otherwise
`SERVICES[target] = ALL_SERVICES.get(target)` and `OKAY`. -/
def enableCmd (w : World) (args : List String) : World × Option PyExc :=
  match args with
  | [] => (tell w ((dictGet COMMANDS_HELP "enable").getD "None"), none)
  | target :: _ =>
      match dictGet ALL_SERVICES target with
      | none =>
          (tell (error w) ("Service '" ++ target ++ "' not available to enable."), none)
      | some svc =>
          (okay { w with services := dictInsert w.services target svc }, none)

/-- `disable(client, args)`: no args prints the help text; a name not in the
Registry gets `ERROR` / not available to disable; otherwise
`SERVICES.pop(target)` and `OKAY`. -/
def disableCmd (w : World) (args : List String) : World × Option PyExc :=
  match args with
  | [] => (tell w ((dictGet COMMANDS_HELP "disable").getD "None"), none)
  | target :: _ =>
      match dictGet w.services target with
      | none =>
          (tell (error w) ("Service '" ++ target ++ "' not available to disable."), none)
      | some _ =>
          (okay { w with services := dictPop w.services target }, none)

/-- The handler type of the `COMMANDS` table. -/
def Handler : Type :=
  World → List String → World × Option PyExc

/-- `COMMANDS` of junction.py (the disabled `tell_next` is not registered). -/
def COMMANDS : List (String × Handler) :=
  [("help", hlp), ("end", close), ("exit", close), ("stop", stop),
   ("service", serviceCmd), ("discover", discoverCmd), ("status", statusCmd),
   ("enable", enableCmd), ("disable", disableCmd), ("save", saveCmd)]

/-- `interpret(client, command)`: split the line; an empty line sends `""`;
otherwise the first token, lower-cased, selects a handler (a miss sends
`ERROR` and a not-found message).  The prompt is then sent — unless the
handler raised, in which case the exception propagates out of `interpret`
and the prompt send is skipped. -/
def interpret (w : World) (command : String) : World × Option PyExc :=
  match pySplit command with
  | c0 :: args =>
      let cmd := pyLower c0
      match dictGet COMMANDS cmd with
      | none =>
          (send (tell (error w) ("Command '" ++ cmd ++ "' not found.")) "$junction > ", none)
      | some call =>
          match call w args with
          | (w1, none) => (send w1 "$junction > ", none)
          | (w1, some e) => (w1, some e)
  | [] => (send (send w "") "$junction > ", none)

/-! ### Verification-side definitions: predicates and concrete states -/

/-- The client's output history in `w2` extends that of `w1`. -/
def OutExt (w1 w2 : World) : Prop :=
  ∃ d, w2.client.out = w1.client.out ++ d

/-- A handler result is benign: no exception escapes, and the client's
output history has only been appended to. -/
def HOk (w : World) (r : World × Option PyExc) : Prop :=
  r.2 = none ∧ OutExt w r.1

/-- A fresh session against an empty registry and no saved file. -/
def w0 : World :=
  { client := { out := [], active := true, idleTime := 0 },
    services := [], savedFile := none, deviceTasked := false, run := true }

/-- A session with only the printer enabled. -/
def wPrint : World :=
  { w0 with services := [("print", ServiceId.printer)] }

/-- A session with only morse enabled and the device idle. -/
def wMorse : World :=
  { w0 with services := [("morse", ServiceId.morse)] }

/-- Two live sessions for the idle-sweep witness: one 31 units idle, one
exactly at the 30-unit threshold. -/
def demoClients : List Client :=
  [{ out := [], active := true, idleTime := 31 },
   { out := [], active := true, idleTime := 30 }]

/-- The Registry invariant of C7: every registry entry maps a Catalog key
to that key's own Catalog service. -/
def RegOk (d : List (String × ServiceId)) : Prop :=
  ∀ p ∈ d, dictGet ALL_SERVICES p.1 = some p.2

/-- A printer-only registry whose saved file holds a resolvable and an
unknown name. -/
def wGhostSave : World :=
  { wPrint with savedFile := some ["lamp", "ghost"] }

/-! ### Basic lemmas about the embedding -/

theorem send_out (w : World) (s : String) :
    (send w s).client.out = w.client.out ++ [s] := rfl

theorem tell_out (w : World) (m : String) :
    (tell w m).client.out = w.client.out ++ [m ++ "\n"] := rfl

theorem error_out (w : World) :
    (error w).client.out = w.client.out ++ ["ERROR\n"] := rfl

theorem okay_out (w : World) :
    (okay w).client.out = w.client.out ++ ["OKAY\n"] := rfl

theorem outExt_here (w : World) : OutExt w w :=
  ⟨[], (List.append_nil _).symm⟩

theorem outExt_send {w1 w2 : World} (h : OutExt w1 w2) (s : String) :
    OutExt w1 (send w2 s) := by
  obtain ⟨d, hd⟩ := h
  exact ⟨d ++ [s], by simp [send_out, hd]⟩

theorem outExt_tell {w1 w2 : World} (h : OutExt w1 w2) (m : String) :
    OutExt w1 (tell w2 m) :=
  outExt_send h (m ++ "\n")

theorem outExt_error {w1 w2 : World} (h : OutExt w1 w2) :
    OutExt w1 (error w2) :=
  outExt_tell h "ERROR"

theorem outExt_okay {w1 w2 : World} (h : OutExt w1 w2) :
    OutExt w1 (okay w2) :=
  outExt_tell h "OKAY"

/-- Transport an extension along any world whose client output agrees
(e.g. a record update that leaves the client alone). -/
theorem outExt_eqOut {w1 w2 w3 : World} (h : OutExt w1 w2)
    (hc : w3.client.out = w2.client.out) : OutExt w1 w3 := by
  obtain ⟨d, hd⟩ := h
  exact ⟨d, by rw [hc, hd]⟩

theorem performExc_typeError {cs : List Char} {e : PyExc}
    (h : performExc cs = some e) : ∃ m, e = PyExc.typeError m := by
  induction cs with
  | nil => simp [performExc] at h
  | cons c rest ih =>
      by_cases hc : c = '.' ∨ c = '-' ∨ c = ' ' ∨ c = '/'
      · exact ih (by simpa [performExc, hc] using h)
      · refine ⟨"NoneType object is not callable", ?_⟩
        simp [performExc, hc] at h
        exact h.symm

theorem morseDo_spec (w : World) (text : List String) :
    OutExt w (morseDo w text).1 ∧
      ((morseDo w text).2 = none ∨
        ∃ m, (morseDo w text).2 = some (PyExc.typeError m)) := by
  unfold morseDo
  cases hb : w.deviceTasked
  · simp only [hb, Bool.not_false, ite_true]
    have hw1 : OutExt w { (okay w) with deviceTasked := true } :=
      outExt_eqOut (outExt_okay (outExt_here w)) rfl
    rcases hp : performExc ((text.foldl (fun b word => b ++ encode word) "").data)
      with _ | e
    · simp only [hp]
      exact ⟨outExt_eqOut hw1 rfl, Or.inl trivial⟩
    · obtain ⟨m, rfl⟩ := performExc_typeError hp
      simp only [hp]
      exact ⟨hw1, Or.inr ⟨m, rfl⟩⟩
  · simp only [hb, Bool.not_true, Bool.false_eq_true, ite_false]
    exact ⟨outExt_tell (outExt_error (outExt_here w)) _, Or.inl trivial⟩

theorem svcDo_spec (svc : ServiceId) (w : World) (t : Option (List String)) :
    OutExt w (svcDo svc w t).1 ∧
      ((svcDo svc w t).2 = none ∨
        ∃ m, (svcDo svc w t).2 = some (PyExc.typeError m)) := by
  cases svc <;> cases t <;>
    first
      | exact morseDo_spec w _
      | exact ⟨outExt_here w, Or.inr ⟨_, rfl⟩⟩
      | exact ⟨outExt_okay (outExt_here w), Or.inl rfl⟩

theorem exceptTypeError_hok {w : World} {r : World × Option PyExc}
    (h1 : OutExt w r.1)
    (h2 : r.2 = none ∨ ∃ m, r.2 = some (PyExc.typeError m)) :
    HOk w (exceptTypeError r) := by
  rcases r with ⟨w1, e⟩
  simp only at h1
  rcases e with _ | e
  · exact ⟨rfl, h1⟩
  · rcases h2 with h2 | ⟨m, hm⟩
    · simp at h2
    · simp only [Option.some.injEq] at hm
      subst hm
      exact ⟨rfl, outExt_tell (outExt_error h1) _⟩

theorem hlp_hok (w : World) (args : List String) : HOk w (hlp w args) := by
  rcases args with _ | ⟨a, rest⟩
  · exact ⟨rfl, outExt_tell (outExt_tell (outExt_here w) _) _⟩
  · rcases hh : dictGet COMMANDS_HELP a with _ | h <;> simp only [hlp, hh]
    · exact ⟨rfl, outExt_tell (outExt_error (outExt_here w)) _⟩
    · exact ⟨rfl, outExt_tell (outExt_here w) _⟩

theorem close_hok (w : World) (args : List String) : HOk w (close w args) :=
  ⟨rfl, outExt_eqOut (outExt_here w) rfl⟩

theorem stop_hok (w : World) (args : List String) : HOk w (stop w args) :=
  ⟨rfl, outExt_eqOut (outExt_here w) rfl⟩

theorem serviceCmd_hok (w : World) (args : List String) :
    HOk w (serviceCmd w args) := by
  rcases args with _ | ⟨target, rest⟩
  · exact ⟨rfl, outExt_tell (outExt_here w) _⟩
  · rcases hh : dictGet w.services target with _ | svc <;>
      simp only [serviceCmd, hh]
    · exact ⟨rfl, outExt_tell (outExt_error (outExt_here w)) _⟩
    · obtain ⟨h1, h2⟩ := svcDo_spec svc w (if rest.length > 0 then some rest else none)
      exact exceptTypeError_hok h1 h2

theorem discoverCmd_hok (w : World) (args : List String) :
    HOk w (discoverCmd w args) :=
  ⟨rfl, outExt_tell (outExt_here w) _⟩

theorem statusCmd_hok (w : World) (args : List String) :
    HOk w (statusCmd w args) := by
  rcases args with _ | ⟨target, rest⟩
  · exact ⟨rfl, outExt_tell (outExt_here w) _⟩
  · rcases hh : dictGet w.services target with _ | svc <;>
      simp only [statusCmd, hh]
    · exact ⟨rfl, outExt_tell (outExt_error (outExt_here w)) _⟩
    · rcases hs : svcStatus svc w with _ | s <;> simp only [hs]
      · exact ⟨rfl, outExt_tell (outExt_error (outExt_here w)) _⟩
      · exact ⟨rfl, outExt_tell (outExt_here w) _⟩

theorem saveCmd_hok (w : World) (args : List String) : HOk w (saveCmd w args) :=
  ⟨rfl, outExt_okay (outExt_eqOut (outExt_here w) rfl)⟩

theorem enableCmd_hok (w : World) (args : List String) :
    HOk w (enableCmd w args) := by
  rcases args with _ | ⟨target, rest⟩
  · exact ⟨rfl, outExt_tell (outExt_here w) _⟩
  · rcases hh : dictGet ALL_SERVICES target with _ | svc <;>
      simp only [enableCmd, hh]
    · exact ⟨rfl, outExt_tell (outExt_error (outExt_here w)) _⟩
    · exact ⟨rfl, outExt_okay (outExt_eqOut (outExt_here w) rfl)⟩

theorem disableCmd_hok (w : World) (args : List String) :
    HOk w (disableCmd w args) := by
  rcases args with _ | ⟨target, rest⟩
  · exact ⟨rfl, outExt_tell (outExt_here w) _⟩
  · rcases hh : dictGet w.services target with _ | svc <;>
      simp only [disableCmd, hh]
    · exact ⟨rfl, outExt_tell (outExt_error (outExt_here w)) _⟩
    · exact ⟨rfl, outExt_okay (outExt_eqOut (outExt_here w) rfl)⟩

theorem commands_lookup {c : String} {f : Handler}
    (h : dictGet COMMANDS c = some f) :
    f = hlp ∨ f = close ∨ f = stop ∨ f = serviceCmd ∨ f = discoverCmd ∨
      f = statusCmd ∨ f = enableCmd ∨ f = disableCmd ∨ f = saveCmd := by
  simp only [COMMANDS, dictGet] at h
  split_ifs at h <;> simp_all

theorem handler_hok {f : Handler} (w : World) (args : List String)
    (hf : f = hlp ∨ f = close ∨ f = stop ∨ f = serviceCmd ∨ f = discoverCmd ∨
      f = statusCmd ∨ f = enableCmd ∨ f = disableCmd ∨ f = saveCmd) :
    HOk w (f w args) := by
  rcases hf with rfl | rfl | rfl | rfl | rfl | rfl | rfl | rfl | rfl
  · exact hlp_hok w args
  · exact close_hok w args
  · exact stop_hok w args
  · exact serviceCmd_hok w args
  · exact discoverCmd_hok w args
  · exact statusCmd_hok w args
  · exact enableCmd_hok w args
  · exact disableCmd_hok w args
  · exact saveCmd_hok w args

/-! ### Dictionary lemmas -/

theorem dictGet_dictInsert_self {α : Type} (d : List (String × α)) (k : String)
    (v : α) : dictGet (dictInsert d k v) k = some v := by
  induction d with
  | nil => simp [dictInsert, dictGet]
  | cons p rest ih =>
      rcases p with ⟨k0, v0⟩
      by_cases hk : k0 = k
      · subst hk
        simp [dictInsert, dictGet]
      · simp [dictInsert, dictGet, hk, ih]

theorem dictInsert_idem {α : Type} (d : List (String × α)) (k : String) (v : α) :
    dictInsert (dictInsert d k v) k v = dictInsert d k v := by
  induction d with
  | nil => simp [dictInsert]
  | cons p rest ih =>
      rcases p with ⟨k0, v0⟩
      by_cases hk : k0 = k
      · subst hk
        simp [dictInsert]
      · simp [dictInsert, hk, ih]

theorem dictKeys_nil {α : Type} : dictKeys ([] : List (String × α)) = [] := rfl

theorem dictKeys_cons {α : Type} (k0 : String) (v0 : α)
    (rest : List (String × α)) :
    dictKeys ((k0, v0) :: rest) = k0 :: dictKeys rest := rfl

theorem dictPop_dictInsert {α : Type} (d : List (String × α)) (k : String)
    (v : α) (hk : k ∉ dictKeys d) : dictPop (dictInsert d k v) k = d := by
  induction d with
  | nil => simp [dictInsert, dictPop]
  | cons p rest ih =>
      rcases p with ⟨k0, v0⟩
      simp only [dictKeys_cons, List.mem_cons] at hk
      push_neg at hk
      have hne : ¬ k0 = k := fun h => hk.1 h.symm
      simp [dictInsert, dictPop, hne, ih hk.2]

theorem mem_dictKeys_iff {α : Type} (d : List (String × α)) (k : String) :
    k ∈ dictKeys d ↔ ∃ v, dictGet d k = some v := by
  induction d with
  | nil => simp [dictKeys, dictGet]
  | cons p rest ih =>
      rcases p with ⟨k0, v0⟩
      by_cases hk : k0 = k
      · subst hk
        simp [dictKeys_cons, dictGet]
      · have hne : ¬ k = k0 := fun h => hk h.symm
        simp only [dictKeys_cons, List.mem_cons, dictGet, if_neg hk]
        simp [hne, ih]

theorem not_mem_dictKeys_dictPop {α : Type} (d : List (String × α)) (k : String)
    (hnd : (dictKeys d).Nodup) : k ∉ dictKeys (dictPop d k) := by
  induction d with
  | nil => simp [dictPop, dictKeys]
  | cons p rest ih =>
      rcases p with ⟨k0, v0⟩
      simp only [dictKeys_cons, List.nodup_cons] at hnd
      by_cases hk : k0 = k
      · subst hk
        simpa [dictPop, dictKeys] using hnd.1
      · have hne : ¬ k = k0 := fun h => hk h.symm
        simp only [dictPop, if_neg hk, dictKeys_cons, List.mem_cons]
        push_neg
        exact ⟨hne, ih hnd.2⟩

theorem mem_dictInsert {α : Type} {d : List (String × α)} {k : String} {v : α}
    {p : String × α} (hp : p ∈ dictInsert d k v) : p = (k, v) ∨ p ∈ d := by
  induction d with
  | nil => simpa [dictInsert] using hp
  | cons q rest ih =>
      rcases q with ⟨k0, v0⟩
      by_cases hk : k0 = k
      · subst hk
        rcases (by simpa [dictInsert] using hp : p = (k0, v) ∨ p ∈ rest) with h | h
        · exact Or.inl h
        · exact Or.inr (by simp [h])
      · rcases (by simpa [dictInsert, hk] using hp :
            p = (k0, v0) ∨ p ∈ dictInsert rest k v) with h | h
        · exact Or.inr (by simp [h])
        · rcases ih h with h2 | h2
          · exact Or.inl h2
          · exact Or.inr (by simp [h2])

theorem mem_dictPop {α : Type} {d : List (String × α)} {k : String}
    {p : String × α} (hp : p ∈ dictPop d k) : p ∈ d := by
  induction d with
  | nil => simp [dictPop] at hp
  | cons q rest ih =>
      rcases q with ⟨k0, v0⟩
      by_cases hk : k0 = k
      · exact List.mem_cons_of_mem _ (by simpa [dictPop, hk] using hp)
      · rcases (by simpa [dictPop, hk] using hp :
            p = (k0, v0) ∨ p ∈ dictPop rest k) with h | h
        · exact List.mem_cons.mpr (Or.inl h)
        · exact List.mem_cons.mpr (Or.inr (ih h))

theorem dictKeys_dictInsert {α : Type} (d : List (String × α)) (k : String)
    (v : α) :
    dictKeys (dictInsert d k v) =
      if k ∈ dictKeys d then dictKeys d else dictKeys d ++ [k] := by
  induction d with
  | nil => simp [dictInsert, dictKeys]
  | cons p rest ih =>
      rcases p with ⟨k0, v0⟩
      by_cases hk : k0 = k
      · subst hk
        simp only [dictKeys_cons]
        rw [if_pos (List.mem_cons_self _ _)]
        simp [dictInsert, dictKeys_cons]
      · have hne : ¬ k = k0 := fun h => hk h.symm
        simp only [dictInsert, if_neg hk, dictKeys_cons, ih, List.mem_cons]
        by_cases hm : k ∈ dictKeys rest <;> simp [hne, hm]

/-! ### Claim theorems -/

/-- C3: for every input line processed by `interpret` — empty, unknown
command, or a handler invocation (including handlers that report
failures) — no exception escapes and the session's output for that line
ends with the prompt string `$junction > `.  Every registered handler of
this program returns normally: `service` converts every `TypeError` from a
service's `do`, and `status` converts the `AttributeError` of a module
without `status`, so the final prompt send is always reached. -/
theorem c3_prompt_always_emitted (w : World) (line : String) :
    (interpret w line).2 = none ∧
      ∃ d, (interpret w line).1.client.out = w.client.out ++ d ++ ["$junction > "] := by
  unfold interpret
  rcases hs : pySplit line with _ | ⟨c0, args⟩
  · exact ⟨rfl, ⟨[""], by simp [send_out]⟩⟩
  · rcases hg : dictGet COMMANDS (pyLower c0) with _ | call
    · simp only [hg]
      exact ⟨trivial, ⟨["ERROR\n", "Command '" ++ pyLower c0 ++ "' not found.\n"],
        by simp [send_out, tell_out, error_out, String.append_assoc]⟩⟩
    · simp only [hg]
      obtain ⟨h2, d, hd⟩ := handler_hok w args (commands_lookup hg)
      rcases hc : call w args with ⟨w1, e⟩
      rw [hc] at h2 hd
      simp only at h2 hd
      subst h2
      exact ⟨rfl, ⟨d, by simp [send_out, hd]⟩⟩

/-- C5: a raw line whose first token, lower-cased, is not a key of
`COMMANDS` gets the uniform failure marker `ERROR` followed by a message
naming that command (as lower-cased for the dispatch), then the prompt;
no exception escapes, the session stays active, and no handler runs — the
registry, the persisted file, the device and the run flag are untouched. -/
theorem c5_unknown_command (w : World) (line : String) (t0 : String)
    (rest : List String) (hsplit : pySplit line = t0 :: rest)
    (hmiss : dictGet COMMANDS (pyLower t0) = none) :
    (interpret w line).2 = none ∧
    (interpret w line).1.client.out = w.client.out ++
      ["ERROR\n", "Command '" ++ pyLower t0 ++ "' not found.\n", "$junction > "] ∧
    (interpret w line).1.client.active = w.client.active ∧
    (interpret w line).1.services = w.services ∧
    (interpret w line).1.savedFile = w.savedFile ∧
    (interpret w line).1.deviceTasked = w.deviceTasked ∧
    (interpret w line).1.run = w.run := by
  unfold interpret
  simp only [hsplit, hmiss]
  refine ⟨trivial, ?_, rfl, rfl, rfl, rfl, rfl⟩
  simp [send, tell, error, String.append_assoc]

/-- `read_services_go` on names that all resolve in the Catalog: no
`KeyError` is raised, and the final key list is the starting key list
extended, in order, with the recorded names not already present. -/
theorem read_services_go_resolvable (names : List String) :
    ∀ d : List (String × ServiceId),
      (∀ n ∈ names, ∃ s, dictGet ALL_SERVICES n = some s) →
      ∃ d', read_services_go names d = (d', none) ∧
        dictKeys d' =
          names.foldl (fun ks n => if n ∈ ks then ks else ks ++ [n]) (dictKeys d) := by
  induction names with
  | nil => exact fun d _ => ⟨d, rfl, rfl⟩
  | cons n rest ih =>
      intro d h
      obtain ⟨s, hs⟩ := h n (by simp)
      obtain ⟨d', hgo, hkeys⟩ :=
        ih (dictInsert d n s) (fun m hm => h m (by simp [hm]))
      refine ⟨d', ?_, ?_⟩
      · simp [read_services_go, hs, hgo]
      · rw [hkeys, List.foldl_cons, dictKeys_dictInsert]

/-- Folding fresh, pairwise-distinct names into an accumulator they do not
meet appends them verbatim. -/
theorem foldl_addNew_of_nodup (names : List String) :
    ∀ acc : List String, names.Nodup → (∀ n ∈ names, n ∉ acc) →
      names.foldl (fun ks n => if n ∈ ks then ks else ks ++ [n]) acc =
        acc ++ names := by
  induction names with
  | nil => simp
  | cons n rest ih =>
      intro acc hnd hdisj
      simp only [List.nodup_cons] at hnd
      have hn : n ∉ acc := hdisj n (by simp)
      rw [List.foldl_cons, if_neg hn, ih (acc ++ [n]) hnd.2 ?_]
      · simp
      · intro m hm
        simp only [List.mem_append, List.mem_singleton]
        push_neg
        exact ⟨hdisj m (by simp [hm]), fun he => hnd.1 (he ▸ hm)⟩

/-- Witness for C5 at the concrete line `FROBnicate now`: the mixed-case
unknown command is reported lower-cased, and the session stays active. -/
theorem c5_unknown_command_witness :
    (interpret w0 "FROBnicate now").2 = none ∧
    (interpret w0 "FROBnicate now").1.client.out =
      ["ERROR\n", "Command 'frobnicate' not found.\n", "$junction > "] ∧
    (interpret w0 "FROBnicate now").1.client.active = true := by
  obtain ⟨h1, h2, h3, h4⟩ :=
    c5_unknown_command w0 "FROBnicate now" "FROBnicate" ["now"] rfl rfl
  exact ⟨h1, by simpa using h2, by simpa using h3⟩

/-- C2: for an enabled set drawn from the Catalog (every registry key
resolves; dict keys are pairwise distinct), `save_services` followed by
`read_services` into a fresh process state with an empty registry raises
nothing and reconstructs exactly the same enabled-name list — no loss, no
duplication, order included. -/
theorem c2_save_load_roundtrip (w : World)
    (hnd : (dictKeys w.services).Nodup)
    (hsub : ∀ k ∈ dictKeys w.services, ∃ s, dictGet ALL_SERVICES k = some s) :
    ∃ w2, read_services { w0 with savedFile := (save_services w).savedFile } =
        (w2, none) ∧
      dictKeys w2.services = dictKeys w.services := by
  obtain ⟨d', hgo, hkeys⟩ :=
    read_services_go_resolvable (dictKeys w.services) [] hsub
  refine ⟨{ w0 with savedFile := some (dictKeys w.services), services := d' },
    ?_, ?_⟩
  · simp only [save_services, read_services]
    rw [show w0.services = ([] : List (String × ServiceId)) from rfl, hgo]
    rfl
  · rw [hkeys]
    simpa using foldl_addNew_of_nodup (dictKeys w.services) [] hnd (by simp)

/-- Witness for C2 at the concrete enabled set `print, morse`: the
round-trip reproduces exactly that key list. -/
theorem c2_save_load_roundtrip_witness :
    ∃ w2, read_services { w0 with savedFile :=
        (save_services { w0 with services :=
          [("print", ServiceId.printer), ("morse", ServiceId.morse)] }).savedFile } =
        (w2, none) ∧
      dictKeys w2.services = ["print", "morse"] :=
  c2_save_load_roundtrip
    { w0 with services := [("print", ServiceId.printer), ("morse", ServiceId.morse)] }
    (by decide)
    (by intro k hk
        rcases (by simpa [dictKeys] using hk : k = "print" ∨ k = "morse") with rfl | rfl
        · exact ⟨ServiceId.printer, rfl⟩
        · exact ⟨ServiceId.morse, rfl⟩)

/-- C1 evidence: loading a persisted enabled-set `[morse, ghost, print]`
where `ghost` is absent from the Catalog raises `KeyError('ghost')` out of
`read_services` — `ALL_SERVICES[service]` raises on a missing key, only
`FileNotFoundError` is caught, and the `is not None` skip-branch is
unreachable.  The registry retains only the names resolved before the
raise, so the still-resolvable `print` is dropped, contradicting the
claimed log-and-skip behaviour. -/
theorem c1_load_unknown_name_raises :
    read_services { w0 with savedFile := some ["morse", "ghost", "print"] } =
      ({ w0 with savedFile := some ["morse", "ghost", "print"],
                 services := [("morse", ServiceId.morse)] },
        some (PyExc.keyError "ghost")) := rfl

/-- C8 counterexample: the reply to `help` is not a single enumeration line
followed by the prompt — a second line (`For details, use help
<command>.`) sits between them, so the output for the line has three
sends, not two. -/
theorem c8_counterexample :
    ¬ ∃ l : String, (interpret w0 "help").1.client.out = [l, "$junction > "] := by
  rintro ⟨l, h⟩
  have hl := congrArg List.length h
  simp at hl
  exact absurd hl (by decide)

/-- C8 amended: the reply to `help` is one line enumerating all built-in
command names (joined from the Command Table's keys), then the line
`For details, use help <command>.`, then the prompt; no exception
escapes. -/
theorem c8_amended_help_reply (w : World) :
    commandNames = dictKeys COMMANDS ∧
    (interpret w "help").2 = none ∧
    (interpret w "help").1.client.out = w.client.out ++
      ["Available commands: " ++ pyJoin ", " commandNames ++ "\n",
       "For details, use help <command>.\n", "$junction > "] := by
  refine ⟨rfl, rfl, ?_⟩
  show (send (tell (tell w ("Available commands: " ++ pyJoin ", " commandNames))
      "For details, use help <command>.") "$junction > ").client.out = _
  simp [send, tell, String.append_assoc]

/-- C10: invoked with zero arguments, `service`, `status`, `enable` and
`disable` each reply with exactly that command's help text (a single
`tell`, no `ERROR` marker) and leave everything but the client's output
untouched — no service runs, the registry, file, device and run flag are
unchanged. -/
theorem c10_zero_args_reply_help (w : World) :
    serviceCmd w [] = ({ w with client := { w.client with out := w.client.out ++
        ["Perform a service command.\nservice <name> <*action> <*args>\n"] } }, none) ∧
    statusCmd w [] = ({ w with client := { w.client with out := w.client.out ++
        ["Return the status of a service.\nstatus <service>\n"] } }, none) ∧
    enableCmd w [] = ({ w with client := { w.client with out := w.client.out ++
        ["Enable a service on the device.\nenable <name> <*args>\n"] } }, none) ∧
    disableCmd w [] = ({ w with client := { w.client with out := w.client.out ++
        ["Disable a service on the device.\ndisable <name> <*args>\n"] } }, none) :=
  ⟨rfl, rfl, rfl, rfl⟩

/-- C9: the idle sweep scans the whole session table without dropping
entries, and a live session is closed by the sweep exactly when its idle
time strictly exceeds `IDLE_TIMEOUT`, whose default is 30; a session whose
idle time is at most the threshold keeps its `active` flag. -/
theorem c9_idle_sweep (cs : List Client) (i : Nat) (h : i < cs.length)
    (hact : (cs.get ⟨i, h⟩).active = true) :
    IDLE_TIMEOUT = 30 ∧
    (kickIdle cs).length = cs.length ∧
    ∀ h2 : i < (kickIdle cs).length,
      (((kickIdle cs).get ⟨i, h2⟩).active = false ↔
        IDLE_TIMEOUT < (cs.get ⟨i, h⟩).idleTime) := by
  refine ⟨rfl, by simp [kickIdle], fun h2 => ?_⟩
  have hmap : (kickIdle cs).get ⟨i, h2⟩ =
      (fun c => if c.idleTime > IDLE_TIMEOUT then { c with active := false } else c)
        (cs.get ⟨i, h⟩) := by
    simp [kickIdle, List.get_eq_getElem]
  rw [hmap]
  simp only [List.get_eq_getElem] at hact ⊢
  by_cases hidle : IDLE_TIMEOUT < cs[i].idleTime
  · simp [hidle]
  · simp [hidle, hact]

/-- Witness for C9: the sweep closes the 31-units-idle session and leaves
the exactly-at-threshold one active. -/
theorem c9_idle_sweep_witness :
    ((kickIdle demoClients).get ⟨0, by decide⟩).active = false ∧
    ¬ ((kickIdle demoClients).get ⟨1, by decide⟩).active = false := by
  constructor
  · exact ((c9_idle_sweep demoClients 0 (by decide) (by decide)).2.2
      (by decide)).mpr (by decide)
  · intro hfalse
    exact absurd (((c9_idle_sweep demoClients 1 (by decide) (by decide)).2.2
      (by decide)).mp hfalse) (by decide)

/-- C6: for a Catalog name `X` (with the registry's keys pairwise distinct,
as Python dict keys are): `enable X` raises nothing, stores the Catalog's
service under `X` so the lookup that `status`/`service` branch on
succeeds, and replies `OKAY`; enabling twice leaves the same registry as
enabling once; `disable X` on an enabled `X` removes it and replies
`OKAY`; `disable X` right after enabling a previously-disabled `X`
restores the registry exactly; and `enable Y` for a name outside the
Catalog replies `ERROR` plus a message and returns the state otherwise
unchanged. -/
theorem c6_enable_disable_laws (w : World) (X : String) (svc : ServiceId)
    (hnd : (dictKeys w.services).Nodup)
    (hcat : dictGet ALL_SERVICES X = some svc) :
    (enableCmd w [X]).2 = none ∧
    (enableCmd w [X]).1.services = dictInsert w.services X svc ∧
    dictGet (enableCmd w [X]).1.services X = some svc ∧
    (enableCmd w [X]).1.client.out = w.client.out ++ ["OKAY\n"] ∧
    (enableCmd (enableCmd w [X]).1 [X]).1.services =
      (enableCmd w [X]).1.services ∧
    (X ∈ dictKeys w.services →
      X ∉ dictKeys (disableCmd w [X]).1.services ∧
      (disableCmd w [X]).1.client.out = w.client.out ++ ["OKAY\n"]) ∧
    (X ∉ dictKeys w.services →
      (disableCmd (enableCmd w [X]).1 [X]).1.services = w.services) ∧
    (∀ Y, dictGet ALL_SERVICES Y = none →
      enableCmd w [Y] =
        (tell (error w) ("Service '" ++ Y ++ "' not available to enable."),
          none)) := by
  have hen : enableCmd w [X] =
      (okay { w with services := dictInsert w.services X svc }, none) := by
    simp [enableCmd, hcat]
  refine ⟨by rw [hen], by rw [hen]; rfl, ?_, ?_, ?_, ?_, ?_, ?_⟩
  · rw [hen]
    exact dictGet_dictInsert_self _ _ _
  · rw [hen]
    simp [okay, tell, send]
  · rw [hen]
    simp [enableCmd, hcat, okay, tell, send, dictInsert_idem]
  · intro hX
    obtain ⟨v, hv⟩ := (mem_dictKeys_iff _ _).mp hX
    have hdis : disableCmd w [X] =
        (okay { w with services := dictPop w.services X }, none) := by
      simp [disableCmd, hv]
    constructor
    · rw [hdis]
      exact not_mem_dictKeys_dictPop _ _ hnd
    · rw [hdis]
      simp [okay, tell, send]
  · intro hX
    rw [hen]
    simp [disableCmd, okay, tell, send, dictGet_dictInsert_self,
      dictPop_dictInsert _ _ _ hX]
  · intro Y hY
    simp [enableCmd, hY]

/-- Witness for C6: enabling `morse` over a registry holding only the
printer resolves `morse`, is idempotent, is undone by `disable`, and
enabling the unknown `ghost` produces the error reply. -/
theorem c6_enable_disable_laws_witness :
    dictGet (enableCmd wPrint ["morse"]).1.services "morse" =
      some ServiceId.morse ∧
    (enableCmd (enableCmd wPrint ["morse"]).1 ["morse"]).1.services =
      (enableCmd wPrint ["morse"]).1.services ∧
    (disableCmd (enableCmd wPrint ["morse"]).1 ["morse"]).1.services =
      wPrint.services ∧
    enableCmd wPrint ["ghost"] =
      (tell (error wPrint) "Service 'ghost' not available to enable.", none) := by
  obtain ⟨h1, h2, h3, h4, h5, h6, h7, h8⟩ :=
    c6_enable_disable_laws wPrint "morse" ServiceId.morse (by decide) rfl
  exact ⟨h3, h5, h7 (by decide), h8 "ghost" rfl⟩

/-- The load loop only ever inserts a name together with its Catalog
service, so it preserves the Registry invariant even when it stops early
on a `KeyError`. -/
theorem regOk_read_services_go (names : List String) :
    ∀ d, RegOk d → RegOk (read_services_go names d).1 := by
  induction names with
  | nil => exact fun d h => h
  | cons n rest ih =>
      intro d h
      rcases hc : dictGet ALL_SERVICES n with _ | s
      · simpa [read_services_go, hc] using h
      · simp only [read_services_go, hc]
        refine ih _ ?_
        intro p hp
        rcases mem_dictInsert hp with rfl | hp2
        · exact hc
        · exact h p hp2

/-- C7: the empty initial registry satisfies the invariant, and every
registry mutation of the program — `enable`, `disable` (with any
arguments) and `read_services` (on any persisted content, including one
that raises) — preserves it. -/
theorem c7_registry_within_catalog :
    RegOk [] ∧
    ∀ w : World, RegOk w.services →
      (∀ args, RegOk (enableCmd w args).1.services) ∧
      (∀ args, RegOk (disableCmd w args).1.services) ∧
      RegOk (read_services w).1.services := by
  refine ⟨fun p hp => absurd hp (List.not_mem_nil p), fun w hw => ⟨?_, ?_, ?_⟩⟩
  · intro args
    rcases args with _ | ⟨t, rest⟩
    · exact hw
    · rcases hc : dictGet ALL_SERVICES t with _ | svc
      · simpa [enableCmd, hc] using hw
      · simp only [enableCmd, hc]
        intro p hp
        rcases mem_dictInsert hp with rfl | hp2
        · exact hc
        · exact hw p hp2
  · intro args
    rcases args with _ | ⟨t, rest⟩
    · exact hw
    · rcases hc : dictGet w.services t with _ | svc
      · simpa [disableCmd, hc] using hw
      · simp only [disableCmd, hc]
        intro p hp
        exact hw p (mem_dictPop hp)
  · rcases hs : w.savedFile with _ | names
    · simpa [read_services, hs] using hw
    · have hgo := regOk_read_services_go names w.services hw
      rcases hr : read_services_go names w.services with ⟨d, err⟩
      rw [hr] at hgo
      simp only [read_services, hs, hr]
      exact hgo

/-- Witness for C7: from a printer-only registry with a saved file holding
an unknown name, enabling `morse`, disabling `print` and loading all keep
the invariant. -/
theorem c7_registry_within_catalog_witness :
    RegOk (enableCmd wGhostSave ["morse"]).1.services ∧
    RegOk (disableCmd wGhostSave ["print"]).1.services ∧
    RegOk (read_services wGhostSave).1.services := by
  obtain ⟨h1, h2, h3⟩ :=
    c7_registry_within_catalog.2 wGhostSave (by unfold RegOk; decide)
  exact ⟨h1 ["morse"], h2 ["print"], h3⟩

/-- C4 counterexample: with morse enabled and the device idle, the line
`service morse x.` invokes `do` with a text argument — the argument count
is the supported one — yet the run fails internally: the morse encoding of
`.` contains a newline, `perform`'s dispatch table yields `None` for it,
and calling it raises a `TypeError` that is not an arity error.
`service`'s `except TypeError` swallows it and reports
`Invalid number of arguments.`; no exception propagates, refuting the
claim that an internal failure inside `perform` propagates and is
distinguishable from the arity condition. -/
theorem c4_counterexample :
    (morseDo wMorse ["x."]).2 =
      some (PyExc.typeError "NoneType object is not callable") ∧
    (interpret wMorse "service morse x.").2 = none ∧
    (interpret wMorse "service morse x.").1.client.out =
      ["OKAY\n", "ERROR\n", "Invalid number of arguments.\n", "$junction > "] :=
  ⟨rfl, rfl, rfl⟩

/-- C4 amended: `service` with an unregistered name replies `ERROR` plus
`not available`; with a registered name it runs `do` under
`except TypeError`, which maps every raised `TypeError` — whether a
genuine arity mismatch or an internal failure that happens to raise
`TypeError` — to `ERROR` plus `Invalid number of arguments.`, and lets
precisely the non-`TypeError` raises propagate unchanged. -/
theorem c4_service_error_paths (w : World) (target : String)
    (rest : List String) :
    (dictGet w.services target = none →
      serviceCmd w (target :: rest) =
        (tell (error w) ("Service '" ++ target ++ "' not available."), none)) ∧
    (∀ svc, dictGet w.services target = some svc →
      serviceCmd w (target :: rest) =
        exceptTypeError
          (svcDo svc w (if rest.length > 0 then some rest else none))) ∧
    (∀ (w1 : World) (m : String),
      exceptTypeError (w1, some (PyExc.typeError m)) =
        (tell (error w1) "Invalid number of arguments.", none)) ∧
    (∀ (w1 : World) (e : PyExc), (∀ m, e ≠ PyExc.typeError m) →
      exceptTypeError (w1, some e) = (w1, some e)) ∧
    (∀ w1 : World, exceptTypeError (w1, none) = (w1, none)) := by
  refine ⟨?_, ?_, fun w1 m => rfl, ?_, fun w1 => rfl⟩
  · intro h
    simp [serviceCmd, h]
  · intro svc h
    simp [serviceCmd, h]
  · intro w1 e he
    cases e with
    | typeError m => exact absurd rfl (he m)
    | keyError k => rfl
    | attributeError m => rfl

/-- Witness for C4 (amended): the unknown name `ghost` gets the
`not available` reply; `service morse` with no action argument goes
through the `except TypeError` wrapper around the one-argument call; and
a non-`TypeError` exception passes through the wrapper untouched. -/
theorem c4_service_error_paths_witness :
    serviceCmd w0 ["ghost"] =
      (tell (error w0) "Service 'ghost' not available.", none) ∧
    serviceCmd wMorse ["morse"] =
      exceptTypeError (svcDo ServiceId.morse wMorse none) ∧
    exceptTypeError (w0, some (PyExc.attributeError "boom")) =
      (w0, some (PyExc.attributeError "boom")) := by
  refine ⟨?_, ?_, ?_⟩
  · exact (c4_service_error_paths w0 "ghost" []).1 rfl
  · exact (c4_service_error_paths wMorse "morse" []).2.1 ServiceId.morse rfl
  · exact (c4_service_error_paths w0 "x" []).2.2.2.1 w0
      (PyExc.attributeError "boom") (fun m h => PyExc.noConfusion h)

end Junction
